import Mathlib

/-!
Verification of the runlogger package (a minimal structured-logging facade
for Google Cloud / Stackdriver).  The definitions below are a shallow
embedding of the Go source: strings are modelled as `List Char` (the
serialized output of the logger is ASCII, so character counts coincide with
byte counts wherever the code compares against its byte threshold), the
runtime context of an emission (caller file, line, function, current time,
the `K_SERVICE` environment variable, the prefix path captured at logger
construction) is gathered in an explicit `Env` record, and `interface{}`
values attached as fields are modelled by the small value universe
`GoValue`.
-/

namespace runlogger

/-- Severity enumeration, from the `severety` string type of the source and
its nine constants. -/
inductive severety where
  | default_severety
  | debug_severety
  | info_severety
  | notice_severety
  | warning_severety
  | error_severety
  | critical_severety
  | alert_severety
  | emergency_severety
deriving DecidableEq, Repr

/-- String value of each `severety` constant. -/
def severetyValue : severety → List Char
  | .default_severety => "DEFAULT".data
  | .debug_severety => "DEBUG".data
  | .info_severety => "INFO".data
  | .notice_severety => "NOTICE".data
  | .warning_severety => "WARNING".data
  | .error_severety => "ERROR".data
  | .critical_severety => "CRITICAL".data
  | .alert_severety => "ALERT".data
  | .emergency_severety => "EMERGENCY".data

/-- Size threshold: `const maxSize = 102400`. -/
def maxSize : Nat := 102400

/-- The `@type` marker value: `var errorMessageType = ...`. -/
def errorMessageType : List Char :=
  "type.googleapis.com/google.devtools.clouderrorreporting.v1beta1.ReportedErrorEvent".data

/-- The `isError` switch of `writeLog`: ERROR, CRITICAL, ALERT and EMERGENCY
are the error-class severities. -/
def isError : severety → Bool
  | .error_severety => true
  | .critical_severety => true
  | .alert_severety => true
  | .emergency_severety => true
  | _ => false

/-- The two streams an emission could be written to (`os.Stdout` /
`os.Stderr`). -/
inductive OutStream where
  | stdout
  | stderr
deriving DecidableEq, Repr

/-- Stream selection of `writeLog`, exactly as the code performs it: the
local `output` is initialized to `os.Stderr`, and the `isError` branch
assigns `os.Stderr` again.  Nothing ever assigns the (unused, buffered)
stdout writer. -/
def writeLogOutput (sev : severety) : OutStream :=
  let output := OutStream.stderr
  if isError sev then OutStream.stderr else output

/-- Model of the `interface{}` values the logger's callers attach: enough of
Go's value universe (strings and integers) to exercise every claim. -/
inductive GoValue where
  | str (s : List Char)
  | int (n : Int)
deriving DecidableEq, Repr

/-- The `Field` struct: a caller-supplied key/value pair. -/
structure Field where
  Key : List Char
  Value : GoValue
deriving DecidableEq, Repr

/-- One variadic argument of an emission call: either a display value
(modelled as a string) or a `*Field` marker. -/
inductive Arg where
  | str (s : List Char)
  | field (f : Field)
deriving DecidableEq, Repr

/-- The `extractFields` helper: splits the variadic argument list into the
display values (in order) and the `*Field` arguments (in order). -/
def extractFields : List Arg → List (List Char) × List Field
  | [] => ([], [])
  | .str s :: rest =>
    let r := extractFields rest
    (s :: r.1, r.2)
  | .field f :: rest =>
    let r := extractFields rest
    (r.1, f :: r.2)

/-- Go's `fmt.Sprintln` on string operands: operands separated by single
spaces, with a newline appended. -/
def sprintln : List (List Char) → List Char
  | [] => ['\n']
  | [x] => x ++ ['\n']
  | x :: y :: rest => x ++ ' ' :: sprintln (y :: rest)

/-- Go's `unicode.IsSpace` on the characters `strings.TrimSpace` trims
(ASCII whitespace plus NEL and NBSP). -/
def isSpaceGo (c : Char) : Bool :=
  c = ' ' || c = '\t' || c = '\n' || c = '\r' ||
    c.toNat = 0x0b || c.toNat = 0x0c || c.toNat = 0x85 || c.toNat = 0xa0

/-- Trailing-whitespace trim (helper for `trimSpace`). -/
def trimRight (s : List Char) : List Char :=
  ((s.reverse).dropWhile isSpaceGo).reverse

/-- Go's `strings.TrimSpace`: removes leading and trailing whitespace. -/
def trimSpace (s : List Char) : List Char :=
  (trimRight s).dropWhile isSpaceGo

/-- Space-join as the spec phrases it ("the space-join of the non-Field
arguments"): operands separated by single spaces, no terminator.  Stated for
comparison with the code's `TrimSpace(Sprintln(...))`. -/
def spaceJoin : List (List Char) → List Char
  | [] => []
  | [x] => x
  | x :: y :: rest => x ++ ' ' :: spaceJoin (y :: rest)

/-- Message of an unformatted emission call (`Debug`, `Info`, ...):
`strings.TrimSpace(fmt.Sprintln(inputs...))` over the non-Field inputs. -/
def unformattedMessage (args : List Arg) : List Char :=
  trimSpace (sprintln (extractFields args).1)

/-- The `relative` helper: strip `prefixPath` when it is a prefix of the
path, otherwise return the path unchanged. -/
def relative (prefixPath path : List Char) : List Char :=
  if prefixPath.isPrefixOf path then path.drop prefixPath.length else path


/-- Runtime context of one emission call: the prefix path captured by
`setPrefixPath` at logger construction, the caller file/line/function from
`runtime.Caller`, the current time (already rendered the way
`time.Time.MarshalJSON` renders it), and the `K_SERVICE` environment
variable (`[]` when unset). -/
structure Env where
  prefixPath : List Char
  file : List Char
  line : Nat
  function : List Char
  timestamp : List Char
  kservice : List Char

/-- Lowercase hexadecimal digit, as Go's JSON encoder writes `\u00xx`
escapes. -/
def hexDigit (n : Nat) : Char :=
  if n < 10 then Char.ofNat (48 + n) else Char.ofNat (87 + n)

/-- Escape of one character inside a JSON string, following Go's
`encoding/json` encoder (HTML escaping on, as `json.Marshal` defaults): `\`
and `"` get a backslash, newline/carriage-return/tab use their short forms,
other control characters and `<`, `>`, `&` become `\u00xx`, and the Unicode
line separators U+2028/U+2029 become `\u202x`. -/
def escChar (c : Char) : List Char :=
  if c = '\\' then ['\\', '\\']
  else if c = '\"' then ['\\', '\"']
  else if c = '\n' then ['\\', 'n']
  else if c = '\r' then ['\\', 'r']
  else if c = '\t' then ['\\', 't']
  else if c.toNat < 0x20 || c = '<' || c = '>' || c = '&' then
    ['\\', 'u', '0', '0', hexDigit (c.toNat / 16), hexDigit (c.toNat % 16)]
  else if c.toNat = 0x2028 || c.toNat = 0x2029 then
    ['\\', 'u', '2', '0', '2', hexDigit (c.toNat % 16)]
  else [c]

/-- JSON string-body escape of a whole string. -/
def esc (s : List Char) : List Char := s.flatMap escChar

/-- A JSON string literal: quote, escaped body, quote. -/
def encString (s : List Char) : List Char := '\"' :: (esc s ++ ['\"'])

/-- The `"message"` member of the marshalled `stackdriverLogStruct` (its
first field). -/
def messageField (msg : List Char) : List Char :=
  "\"message\":".data ++ encString msg

/-- The `"jsonPayload"` member: `omitempty`, so nothing when the payload is
absent, and otherwise the already-marshalled payload bytes. -/
def payloadPart : Option (List Char) → List Char
  | none => []
  | some j => ",\"jsonPayload\":".data ++ j

/-- The `"severity"` member. -/
def severityField (sev : severety) : List Char :=
  "\"severity\":\"".data ++ severetyValue sev ++ "\"".data

/-- The `"@type"` member emitted for error-class severities. -/
def typeMarker : List Char :=
  ",\"@type\":\"".data ++ errorMessageType ++ "\"".data

/-- Members of the marshalled record that follow the severity: timestamp,
source location, the `@type` marker (error-class severities only) and the
service context (only when `K_SERVICE` is set). -/
def restField (env : Env) (sev : severety) : List Char :=
  ",\"timestamp\":".data ++ encString env.timestamp
    ++ ",\"logging.googleapis.com/sourceLocation\":\x7b\"file\":".data
    ++ encString (relative env.prefixPath env.file)
    ++ ",\"line\":".data ++ encString (toString env.line).data
    ++ ",\"function\":".data ++ encString env.function ++ "\x7d".data
    ++ (if isError sev then typeMarker else [])
    ++ (if env.kservice = [] then []
        else ",\"serviceContext\":\x7b\"service\":".data ++ encString env.kservice ++ "\x7d".data)

/-- `json.Marshal` of the `stackdriverLogStruct` built by `writeLog`, with
the struct's fields in declaration order; `p` is the marshalled
`jsonPayload` when one is attached (`none` models Go's `omitempty` for a
nil `obj` or an empty field map). -/
def serializeGo (env : Env) (sev : severety) (msg : List Char) (p : Option (List Char)) : List Char :=
  "\x7b".data ++ messageField msg ++ payloadPart p ++ ",".data
    ++ severityField sev ++ restField env sev ++ "\x7d".data

/-- Message of the substitute record the size guard emits:
`fmt.Sprintf("log entry exeed max size of %d bytes: %.100000s", maxSize, j)`
(`%.100000s` truncates the excerpt to 100000 characters). -/
def overflowMessage (j : List Char) : List Char :=
  "log entry exeed max size of ".data ++ (toString maxSize).data
    ++ " bytes: ".data ++ j.take 100000

/-- Outcome of one pass through the tail of `writeLog` (structured mode):
either the marshalled record is written to a stream, or the size guard fires
and `writeLog` recurses through `l.Errorf` with the substitute message. -/
inductive StepResult where
  | emit (s : OutStream) (line : List Char)
  | overflow (msg : List Char)
deriving DecidableEq, Repr

/-- One pass through the tail of structured-mode `writeLog`: marshal the
record, and either replace it (when `len(j) >= maxSize`) or print it
followed by a newline. -/
def writeLogStep (env : Env) (sev : severety) (msg : List Char) (p : Option (List Char)) : StepResult :=
  let j := serializeGo env sev msg p
  if maxSize ≤ j.length then StepResult.overflow (overflowMessage j)
  else StepResult.emit (writeLogOutput sev) (j ++ ['\n'])

/-- Fuel-indexed unfolding of structured-mode `writeLog`: an oversized
record recurses through `l.Errorf`, i.e. a new `writeLog` call with ERROR
severity, the substitute message, no payload, and the runlogger-internal
caller frame `envR`.  `none` means the given fuel did not suffice to emit
anything. -/
def writeLogFuel (envR : Env) : Nat → Env → severety → List Char → Option (List Char) → Option (OutStream × List Char)
  | 0, _, _, _, _ => none
  | n + 1, env, sev, msg, p =>
    match writeLogStep env sev msg p with
    | .emit s line => some (s, line)
    | .overflow msg' => writeLogFuel envR n envR .error_severety msg' none

/-- The loop body's key remap: a `*Field` whose `Key` is exactly
`"message"` has its `Key` overwritten, in place, with `"_message_"`. -/
def remapField (f : Field) : Field :=
  if f.Key = "message".data then { Key := "_message_".data, Value := f.Value } else f

/-- Go map assignment `m[k] = v`, modelled extensionally: a later
assignment to the same key shadows the earlier one. -/
def goAssign (m : List Char → Option GoValue) (f : Field) : List Char → Option GoValue :=
  fun k => if k = f.Key then some f.Value else m k

/-- The `jPayload` map built by structured-mode `writeLog`: each field is
key-remapped and then assigned into the map, in list order. -/
def buildJPayload (fields : List Field) : List Char → Option GoValue :=
  fields.foldl (fun m f => goAssign m (remapField f)) (fun _ => none)

/-- Caller-visible state of the field list after structured-mode `writeLog`
returns: the loop mutated every `*Field` through its pointer, so a field
passed with key `"message"` now carries key `"_message_"`. -/
def writeLogFields (fields : List Field) : List Field :=
  fields.map remapField

/-- The `sourceLocation` struct. -/
structure sourceLocation where
  File : List Char
  Line : List Char
  Function : List Char

/-- The `stackdriverLogStruct` as `writeLog` populates it (field-map
variant); the payload map is modelled extensionally. -/
structure stackdriverLogStruct where
  Message : List Char
  JsonPayload : List Char → Option GoValue
  Severity : severety
  Timestamp : List Char
  SourceLocation : sourceLocation
  Type' : Option (List Char)
  ServiceContext : Option (List Char)

/-- Construction of the record `writeLog` marshals (source lines building
`payload := &stackdriverLogStruct{...}`). -/
def mkPayload (env : Env) (sev : severety) (message : List Char) (fields : List Field) : stackdriverLogStruct :=
  { Message := message
    JsonPayload := buildJPayload fields
    Severity := sev
    Timestamp := env.timestamp
    SourceLocation :=
      { File := relative env.prefixPath env.file
        Line := (toString env.line).data
        Function := env.function }
    Type' := if isError sev then some errorMessageType else none
    ServiceContext := if env.kservice = [] then none else some env.kservice }

/-- `json.Marshal` of one `GoValue`. -/
def marshalGoValue : GoValue → List Char
  | .str s => encString s
  | .int n => (toString n).data

/-- `json.Marshal` of one `*Field` (a struct with exported fields `Key` and
`Value`). -/
def marshalField (f : Field) : List Char :=
  "\x7b\"Key\":".data ++ encString f.Key ++ ",\"Value\":".data ++ marshalGoValue f.Value ++ "\x7d".data

/-- Comma-join of already-marshalled JSON values. -/
def joinComma : List (List Char) → List Char
  | [] => []
  | [x] => x
  | x :: y :: rest => x ++ ",".data ++ joinComma (y :: rest)

/-- `json.Marshal` of the field slice, as the plain-mode branch marshals
it. -/
def marshalFields (fields : List Field) : List Char :=
  "[".data ++ joinComma (fields.map marshalField) ++ "]".data

/-- The human-readable line of the plain-mode branch:
`"%s in [%s:%d]: %s\n"`. -/
def plainLine (env : Env) (sev : severety) (msg : List Char) : List Char :=
  severetyValue sev ++ " in [".data ++ relative env.prefixPath env.file
    ++ ":".data ++ (toString env.line).data ++ "]: ".data ++ msg ++ "\n".data

/-- The plain-mode (`l == nil`) branch of `writeLog`: the human-readable
line, followed by a marshalled dump of the fields on a second line whenever
the call carried fields. -/
def writeLogPlain (env : Env) (sev : severety) (msg : List Char) (fields : List Field) : List Char :=
  if 0 < fields.length then
    plainLine env sev msg ++ (marshalFields fields ++ "\n".data)
  else plainLine env sev msg

/-- A concrete emission context used to instantiate the theorems below. -/
def env0 : Env :=
  { prefixPath := "/home/app/".data
    file := "/home/app/main.go".data
    line := 42
    function := "main.main".data
    timestamp := "2026-01-01T00:00:00Z".data
    kservice := [] }

/-- Key of a remapped field is never the literal `"message"`. -/
theorem remapField_key_ne (f : Field) : (remapField f).Key ≠ "message".data := by
  by_cases h : f.Key = "message".data
  · simp only [remapField, if_pos h]
    decide
  · simpa only [remapField, if_neg h] using h

/-- Value of a field is unchanged by the key remap. -/
theorem remapField_value (f : Field) : (remapField f).Value = f.Value := by
  by_cases h : f.Key = "message".data <;> simp [remapField, h]

/-- Folding assignments over fields none of which (post-remap) carry key `k`
leaves the map's value at `k` unchanged. -/
theorem foldl_goAssign_ne (fields : List Field) (m : List Char → Option GoValue)
    (k : List Char) (hk : ∀ f ∈ fields, (remapField f).Key ≠ k) :
    (fields.foldl (fun m f => goAssign m (remapField f)) m) k = m k := by
  induction fields generalizing m with
  | nil => rfl
  | cons f rest ih =>
    rw [List.foldl_cons, ih _ fun g hg => hk g (List.mem_cons_of_mem _ hg)]
    simp only [goAssign]
    rw [if_neg fun hh => hk f (List.mem_cons_self _ _) hh.symm]

/-- Sprintln is the space-join with a trailing newline. -/
theorem sprintln_eq_spaceJoin : ∀ xs : List (List Char), sprintln xs = spaceJoin xs ++ ['\n']
  | [] => rfl
  | [_] => by simp [sprintln, spaceJoin]
  | x :: y :: rest => by
    rw [sprintln, spaceJoin, sprintln_eq_spaceJoin (y :: rest)]
    simp

/-- A trailing newline is removed by the right trim. -/
theorem trimRight_append_newline (s : List Char) : trimRight (s ++ ['\n']) = trimRight s := by
  simp [trimRight, List.dropWhile_cons, show isSpaceGo '\n' = true from rfl]

/-- C1 (code evaluation): the stream-selection logic of `writeLog` yields the
error stream for every severity — the local `output` starts as `os.Stderr`
and the only assignment to it (in the `isError` branch) assigns `os.Stderr`
again, so DEFAULT, DEBUG, INFO, NOTICE and WARNING lines also go to the
error stream, contradicting the claim that they go to standard output. -/
theorem C1_every_severity_writes_stderr (sev : severety) :
    writeLogOutput sev = OutStream.stderr := by
  cases sev <;> rfl

/-- C7: `relative` strips the captured directory prefix when the source file
path begins with it, and returns the path unchanged otherwise. -/
theorem C7_relative_strips_captured_dir (dir rest path : List Char)
    (h : ¬ dir <+: path) :
    relative dir (dir ++ rest) = rest ∧ relative dir path = path := by
  constructor
  · simp [relative, List.isPrefixOf_iff_prefix, List.prefix_append, List.drop_left]
  · simp [relative, List.isPrefixOf_iff_prefix, h]

/-- C7 witness at concrete paths. -/
theorem C7_relative_witness :
    relative "/a/".data ("/a/".data ++ "b.go".data) = "b.go".data ∧
      relative "/a/".data "/x.go".data = "/x.go".data :=
  C7_relative_strips_captured_dir "/a/".data "b.go".data "/x.go".data (by decide)

/-- C10: the message of an unformatted emission is the space-join of the
non-Field arguments with leading and trailing whitespace removed
(`TrimSpace` of the `Sprintln` result); on the single argument `" a "` this
gives `"a"`, which differs from the plain space-join of the arguments. -/
theorem C10_unformatted_message_trimmed (args : List Arg) :
    unformattedMessage args = trimSpace (spaceJoin (extractFields args).1) ∧
    unformattedMessage [Arg.str " a ".data] = "a".data ∧
    spaceJoin (extractFields [Arg.str " a ".data]).1 ≠
      unformattedMessage [Arg.str " a ".data] := by
  refine ⟨?_, by decide, by decide⟩
  simp only [unformattedMessage, sprintln_eq_spaceJoin, trimSpace, trimRight_append_newline]

/-- C4: a caller-supplied field whose key is exactly `"message"` appears in
the structured payload under the key `"_message_"`, the payload never binds
the key `"message"` itself, and the record's own top-level message field is
exactly the message argument (it is stored outside the payload map, so no
caller-supplied field can overwrite it). -/
theorem C4_message_field_remapped (env : Env) (sev : severety) (msg : List Char)
    (fields fs : List Field) (v : GoValue)
    (h : fields = fs ++ [⟨"message".data, v⟩]) :
    buildJPayload fields "message".data = none ∧
    buildJPayload fields "_message_".data = some v ∧
    (mkPayload env sev msg fields).Message = msg := by
  refine ⟨?_, ?_, rfl⟩
  · exact foldl_goAssign_ne fields _ _ fun f _ => remapField_key_ne f
  · subst h
    rw [buildJPayload, List.foldl_append]
    simp [goAssign, remapField]

/-- C4 witness at a concrete field list. -/
theorem C4_message_field_witness :
    buildJPayload [⟨"a".data, GoValue.int 1⟩, ⟨"message".data, GoValue.str "x".data⟩]
        "message".data = none ∧
    buildJPayload [⟨"a".data, GoValue.int 1⟩, ⟨"message".data, GoValue.str "x".data⟩]
        "_message_".data = some (GoValue.str "x".data) ∧
    (mkPayload env0 severety.info_severety "m".data
        [⟨"a".data, GoValue.int 1⟩, ⟨"message".data, GoValue.str "x".data⟩]).Message = "m".data :=
  C4_message_field_remapped env0 severety.info_severety "m".data _
    [⟨"a".data, GoValue.int 1⟩] (GoValue.str "x".data) rfl

/-- C5: when a field list contains two or more fields with the same key, the
payload maps that (remapped) key to the value of the last occurrence; the
values of all earlier occurrences are discarded. -/
theorem C5_last_occurrence_wins (fs₁ fs₂ : List Field) (f : Field)
    (h : ∀ g ∈ fs₂, (remapField g).Key ≠ (remapField f).Key) :
    buildJPayload (fs₁ ++ f :: fs₂) (remapField f).Key = some f.Value := by
  rw [buildJPayload,
    show fs₁ ++ f :: fs₂ = (fs₁ ++ [f]) ++ fs₂ by simp,
    List.foldl_append, foldl_goAssign_ne fs₂ _ _ h, List.foldl_append]
  simp [goAssign, remapField_value]

/-- C5 witness: with two occurrences of key `"k"`, lookup returns the later
value `2` and the earlier value `1` is gone. -/
theorem C5_last_occurrence_witness :
    buildJPayload ([⟨"k".data, GoValue.int 1⟩] ++ ⟨"k".data, GoValue.int 2⟩ :: [⟨"b".data, GoValue.int 3⟩])
      (remapField ⟨"k".data, GoValue.int 2⟩).Key = some (GoValue.int 2) :=
  C5_last_occurrence_wins [⟨"k".data, GoValue.int 1⟩] [⟨"b".data, GoValue.int 3⟩]
    ⟨"k".data, GoValue.int 2⟩ (by decide)

/-- C9 counterexample: passing the mutated field (key already
`"_message_"`) to a later structured-mode emission produces exactly the
payload map and post-state that the original field (key `"message"`) would
produce — the in-place mutation does happen (first conjunct), but it does
not change the behavior of a later structured-mode emission that reuses the
field, so it does not change the behavior of "any" later emission. -/
theorem C9_structured_reuse_unchanged :
    writeLogFields [⟨"message".data, GoValue.str "x".data⟩] =
      [⟨"_message_".data, GoValue.str "x".data⟩] ∧
    buildJPayload [⟨"_message_".data, GoValue.str "x".data⟩] =
      buildJPayload [⟨"message".data, GoValue.str "x".data⟩] ∧
    writeLogFields [⟨"_message_".data, GoValue.str "x".data⟩] =
      writeLogFields [⟨"message".data, GoValue.str "x".data⟩] :=
  ⟨rfl, rfl, rfl⟩

/-- C9 (amended): a structured-mode emission does mutate a caller-owned
`*Field` whose key is `"message"` in place — afterwards the caller's field
carries key `"_message_"` — and the mutation is observable: a later
plain-mode emission that reuses the field marshals it differently than the
unmutated field; a later structured-mode emission, however, produces an
identical payload, since the remap is idempotent. -/
theorem C9_field_mutated_in_place (v : GoValue) :
    writeLogFields [⟨"message".data, v⟩] = [⟨"_message_".data, v⟩] ∧
    writeLogPlain env0 severety.debug_severety "m".data [⟨"_message_".data, v⟩] ≠
      writeLogPlain env0 severety.debug_severety "m".data [⟨"message".data, v⟩] ∧
    buildJPayload [⟨"_message_".data, v⟩] = buildJPayload [⟨"message".data, v⟩] := by
  refine ⟨by simp [writeLogFields, remapField], ?_, rfl⟩
  intro h
  have hl := congrArg List.length h
  simp [writeLogPlain, marshalFields, joinComma, marshalField, encString] at hl
  have e1 : (esc ['_', 'm', 'e', 's', 's', 'a', 'g', 'e', '_']).length = 9 := by decide
  have e2 : (esc ['m', 'e', 's', 's', 'a', 'g', 'e']).length = 7 := by decide
  omega

/-- C8 counterexample: on the plain-mode (nil) logger, an unformatted
emission call that carries a `*Field` argument does not produce only the
human-readable line — the nil branch appends a marshalled JSON dump of the
field list on a second line. -/
theorem C8_plain_field_call_extra_json :
    writeLogPlain env0 severety.debug_severety
        (unformattedMessage [Arg.str "x".data, Arg.field ⟨"k".data, GoValue.str "v".data⟩])
        (extractFields [Arg.str "x".data, Arg.field ⟨"k".data, GoValue.str "v".data⟩]).2 ≠
      plainLine env0 severety.debug_severety
        (unformattedMessage [Arg.str "x".data, Arg.field ⟨"k".data, GoValue.str "v".data⟩]) := by
  decide

/-- C8 (amended): a plain-mode (nil) logger never produces the structured
single-line JSON document: a call carrying no fields produces exactly the
human-readable line `SEVERITY in [file:line]: message`, and a call carrying
fields produces that line followed by a JSON dump of the field list on a
second line. -/
theorem C8_plain_mode_shape (env : Env) (sev : severety) (msg : List Char) (fields : List Field) :
    (fields = [] → writeLogPlain env sev msg fields = plainLine env sev msg) ∧
    (fields ≠ [] →
      writeLogPlain env sev msg fields =
        plainLine env sev msg ++ (marshalFields fields ++ "\n".data)) := by
  constructor
  · intro h
    subst h
    rfl
  · intro h
    rw [writeLogPlain, if_pos (List.length_pos.mpr h)]

/-- C8 witness: both shapes at concrete inputs. -/
theorem C8_plain_mode_shape_witness :
    writeLogPlain env0 severety.info_severety "m".data [] =
      plainLine env0 severety.info_severety "m".data ∧
    writeLogPlain env0 severety.info_severety "m".data [⟨"k".data, GoValue.int 1⟩] =
      plainLine env0 severety.info_severety "m".data ++
        (marshalFields [⟨"k".data, GoValue.int 1⟩] ++ "\n".data) :=
  ⟨(C8_plain_mode_shape env0 severety.info_severety "m".data []).1 rfl,
    (C8_plain_mode_shape env0 severety.info_severety "m".data [⟨"k".data, GoValue.int 1⟩]).2
      (by decide)⟩

/-- C6: an unformatted emission with the two string arguments `"a"` and
`"b"` produces (for every severity) a record whose message is `"a b"`, and
the structured document serialized for `Info("Hello", "world")` — message
`"Hello world"`, severity INFO, empty field map, hence no `jsonPayload`
member — contains the texts `"message":"Hello world"` and
`"severity":"INFO"`. -/
theorem C6_space_joined_message (env : Env) (sev : severety) :
    (mkPayload env sev (unformattedMessage [Arg.str "a".data, Arg.str "b".data])
        (extractFields [Arg.str "a".data, Arg.str "b".data]).2).Message = "a b".data ∧
    "\"message\":\"Hello world\"".data <:+:
      serializeGo env severety.info_severety "Hello world".data none ∧
    "\"severity\":\"INFO\"".data <:+:
      serializeGo env severety.info_severety "Hello world".data none := by
  have em : esc "Hello world".data = "Hello world".data := by decide
  refine ⟨?_, ?_, ?_⟩
  · show unformattedMessage [Arg.str "a".data, Arg.str "b".data] = "a b".data
    decide
  · refine ⟨"\x7b".data,
      ",".data ++ severityField severety.info_severety
        ++ restField env severety.info_severety ++ "\x7d".data, ?_⟩
    simp [serializeGo, messageField, payloadPart, encString, severityField, severetyValue,
      em, List.append_assoc]
  · refine ⟨"\x7b".data ++ messageField "Hello world".data ++ ",".data,
      restField env severety.info_severety ++ "\x7d".data, ?_⟩
    simp [serializeGo, messageField, payloadPart, encString, severityField, severetyValue,
      em, List.append_assoc]

/-- Escaping distributes over concatenation. -/
theorem esc_append (a b : List Char) : esc (a ++ b) = esc a ++ esc b :=
  List.flatMap_append a b escChar

/-- Escaping a run of a character that escapes to itself is the identity. -/
theorem esc_replicate_safe (c : Char) (hc : escChar c = [c]) :
    ∀ n, esc (List.replicate n c) = List.replicate n c
  | 0 => rfl
  | n + 1 => by
    have ih := esc_replicate_safe c hc n
    simp only [esc, List.replicate_succ, List.flatMap_cons, hc] at ih ⊢
    rw [ih]
    simp

/-- Escaping a run of quotes, one step. -/
theorem esc_replicate_quote (n : Nat) :
    esc (List.replicate (n + 1) '\"') = '\\' :: '\"' :: esc (List.replicate n '\"') := by
  simp only [esc, List.replicate_succ, List.flatMap_cons,
    show escChar '\"' = ['\\', '\"'] from by decide]
  rfl

/-- A run of `n` quotes escapes to `2 * n` characters. -/
theorem length_esc_replicate_quote : ∀ n, (esc (List.replicate n '\"')).length = 2 * n
  | 0 => rfl
  | n + 1 => by
    rw [esc_replicate_quote, List.length_cons, List.length_cons,
      length_esc_replicate_quote n]
    omega

/-- An even-length cut of an escaped quote run is an escaped quote run. -/
theorem take_esc_replicate_quote :
    ∀ k n, (esc (List.replicate n '\"')).take (2 * k) = esc (List.replicate (min k n) '\"')
  | 0, n => by simp [esc]
  | k + 1, 0 => by simp [esc]
  | k + 1, n + 1 => by
    rw [esc_replicate_quote, show 2 * (k + 1) = 2 * k + 1 + 1 by omega,
      List.take_succ_cons, List.take_succ_cons, take_esc_replicate_quote k n,
      Nat.succ_min_succ, esc_replicate_quote]

/-- Twice-escaping a run of `n` quotes yields `4 * n` characters. -/
theorem length_esc_esc_replicate_quote :
    ∀ n, (esc (esc (List.replicate n '\"'))).length = 4 * n
  | 0 => rfl
  | n + 1 => by
    have ih := length_esc_esc_replicate_quote n
    rw [esc_replicate_quote]
    simp only [esc, List.flatMap_cons,
      show escChar '\\' = ['\\', '\\'] from by decide,
      show escChar '\"' = ['\\', '\"'] from by decide] at ih ⊢
    simp only [List.length_append, List.length_cons, List.length_nil] at ih ⊢
    omega

/-- Length of the marshalled record, in terms of its parts (the fixed
punctuation around the message contributes 15 characters). -/
theorem serializeGo_length (env : Env) (sev : severety) (msg : List Char) (p : Option (List Char)) :
    (serializeGo env sev msg p).length =
      15 + (esc msg).length + (payloadPart p).length
        + (severityField sev).length + (restField env sev).length := by
  simp [serializeGo, messageField, encString, List.length_append]
  omega

/-- The escaped message is no longer than the whole marshalled record. -/
theorem esc_length_le_serialize (env : Env) (sev : severety) (msg : List Char) (p : Option (List Char)) :
    (esc msg).length ≤ (serializeGo env sev msg p).length := by
  rw [serializeGo_length]
  omega

/-- The marshalled record with no payload, split right after the opening
quote of the message value. -/
theorem serializeGo_none_decomp (env : Env) (sev : severety) (msg : List Char) :
    serializeGo env sev msg none =
      "\x7b\"message\":\"".data
        ++ (esc msg ++ ("\",".data
        ++ (severityField sev ++ (restField env sev ++ "\x7d".data)))) := by
  simp [serializeGo, messageField, encString, payloadPart, List.append_assoc]

/-- The 100000-character excerpt of a long record: 12 characters of JSON
head, then the first 99988 characters of the escaped message. -/
theorem take_serializeGo_none (env : Env) (sev : severety) (msg : List Char)
    (h : 99988 ≤ (esc msg).length) :
    (serializeGo env sev msg none).take 100000 =
      "\x7b\"message\":\"".data ++ (esc msg).take 99988 := by
  rw [serializeGo_none_decomp, List.take_append_eq_append_take,
    List.take_of_length_le (by decide), show ("\x7b\"message\":\"".data).length = 12 from by decide,
    show (100000 : Nat) - 12 = 99988 from by decide, List.take_append_of_le_length h]

/-- The substitute message spelled out with the threshold rendered. -/
theorem overflowMessage_eq (j : List Char) :
    overflowMessage j =
      "log entry exeed max size of 102400 bytes: ".data ++ j.take 100000 := by
  rw [overflowMessage]
  congr 1

/-- Whatever the fuel, a line actually emitted by `writeLogFuel` passed the
size guard, so it is strictly shorter than `maxSize + 1`. -/
theorem writeLogFuel_emit_short (envR : Env) :
    ∀ (n : Nat) (env : Env) (sev : severety) (msg : List Char) (p : Option (List Char))
      (s : OutStream) (line : List Char),
      writeLogFuel envR n env sev msg p = some (s, line) → line.length < maxSize + 1 := by
  intro n
  induction n with
  | zero =>
    intro env sev msg p s line h
    exact absurd h (by simp [writeLogFuel])
  | succ k ih =>
    intro env sev msg p s line h
    rw [writeLogFuel] at h
    by_cases hc : maxSize ≤ (serializeGo env sev msg p).length
    · rw [show writeLogStep env sev msg p
          = StepResult.overflow (overflowMessage (serializeGo env sev msg p)) from by
        simp only [writeLogStep]; rw [if_pos hc]] at h
      exact ih _ _ _ _ _ _ h
    · rw [show writeLogStep env sev msg p
          = StepResult.emit (writeLogOutput sev) (serializeGo env sev msg p ++ ['\n']) from by
        simp only [writeLogStep]; rw [if_neg hc]] at h
      injection h with h
      cases h
      simp only [List.length_append, List.length_cons, List.length_nil]
      omega

/-- C2: when the marshalled record reaches the 102400-byte threshold, the
size guard fires: the oversized document is replaced by a recursive
ERROR-severity emission whose message states the overflow and carries an
excerpt of at most 100000 characters of the oversized payload, the
recursion's next step is exactly that ERROR emission, and no line the
logger ever emits (whatever the fuel) is the oversized document. -/
theorem C2_oversized_record_replaced (envR env : Env) (sev : severety) (msg : List Char)
    (p : Option (List Char))
    (h : maxSize ≤ (serializeGo env sev msg p).length) :
    writeLogStep env sev msg p =
      StepResult.overflow (overflowMessage (serializeGo env sev msg p)) ∧
    overflowMessage (serializeGo env sev msg p) =
      "log entry exeed max size of 102400 bytes: ".data
        ++ (serializeGo env sev msg p).take 100000 ∧
    ((serializeGo env sev msg p).take 100000).length ≤ 100000 ∧
    (∀ n, writeLogFuel envR (n + 1) env sev msg p =
      writeLogFuel envR n envR severety.error_severety
        (overflowMessage (serializeGo env sev msg p)) none) ∧
    (∀ n s line, writeLogFuel envR n env sev msg p = some (s, line) →
      line ≠ serializeGo env sev msg p ++ ['\n']) := by
  have hstep : writeLogStep env sev msg p =
      StepResult.overflow (overflowMessage (serializeGo env sev msg p)) := by
    simp only [writeLogStep]
    rw [if_pos h]
  refine ⟨hstep, overflowMessage_eq _, ?_, ?_, ?_⟩
  · rw [List.length_take]
    omega
  · intro n
    rw [writeLogFuel, hstep]
  · intro n s line hemit heq
    have hshort := writeLogFuel_emit_short envR n env sev msg p s line hemit
    rw [heq] at hshort
    simp only [List.length_append, List.length_cons, List.length_nil] at hshort
    omega

/-- C2 witness: a 102400-character message of `'a'`s escapes to itself, so
the marshalled record is oversized and the guard fires. -/
theorem C2_oversized_record_witness :
    maxSize ≤ (serializeGo env0 severety.info_severety (List.replicate 102400 'a') none).length ∧
    writeLogStep env0 severety.info_severety (List.replicate 102400 'a') none =
      StepResult.overflow
        (overflowMessage (serializeGo env0 severety.info_severety (List.replicate 102400 'a') none)) := by
  have ha : esc (List.replicate 102400 'a') = List.replicate 102400 'a' :=
    esc_replicate_safe 'a' (by decide) 102400
  have h : maxSize ≤ (serializeGo env0 severety.info_severety (List.replicate 102400 'a') none).length := by
    refine le_trans ?_ (esc_length_le_serialize env0 severety.info_severety _ none)
    rw [ha, List.length_replicate]
    decide
  exact ⟨h, (C2_oversized_record_replaced env0 env0 severety.info_severety _ none h).1⟩

/-- C3 (amended): the substitute ERROR record is itself checked against the
same threshold, and when its own marshalled form is below the threshold the
recursive call through `Errorf` emits it directly — the recursion ends
after one step, with the substitute written to the error stream. -/
theorem C3_one_step_when_substitute_fits (envR env : Env) (sev : severety)
    (msg : List Char) (p : Option (List Char))
    (h1 : maxSize ≤ (serializeGo env sev msg p).length)
    (h2 : (serializeGo envR severety.error_severety
        (overflowMessage (serializeGo env sev msg p)) none).length < maxSize) :
    writeLogFuel envR 2 env sev msg p =
      some (OutStream.stderr,
        serializeGo envR severety.error_severety
          (overflowMessage (serializeGo env sev msg p)) none ++ ['\n']) := by
  show writeLogFuel envR (1 + 1) env sev msg p = _
  rw [writeLogFuel,
    show writeLogStep env sev msg p =
        StepResult.overflow (overflowMessage (serializeGo env sev msg p)) from by
      simp only [writeLogStep]; rw [if_pos h1]]
  show writeLogFuel envR (0 + 1) envR severety.error_severety _ none = _
  rw [writeLogFuel,
    show writeLogStep envR severety.error_severety
          (overflowMessage (serializeGo env sev msg p)) none =
        StepResult.emit (writeLogOutput severety.error_severety)
          (serializeGo envR severety.error_severety
            (overflowMessage (serializeGo env sev msg p)) none ++ ['\n']) from by
      simp only [writeLogStep]; rw [if_neg (Nat.not_le.mpr h2)]]
  rfl

set_option maxRecDepth 8192 in
/-- C3 witness: for a 102400-character message of `'a'`s (no escaping), the
substitute's 100045-character escaped message keeps it under the threshold,
so the recursion ends after one step. -/
theorem C3_one_step_witness :
    writeLogFuel env0 2 env0 severety.info_severety (List.replicate 102400 'a') none =
      some (OutStream.stderr,
        serializeGo env0 severety.error_severety
          (overflowMessage
            (serializeGo env0 severety.info_severety (List.replicate 102400 'a') none)) none
          ++ ['\n']) := by
  have ha : esc (List.replicate 102400 'a') = List.replicate 102400 'a' :=
    esc_replicate_safe 'a' (by decide) 102400
  have h1 : maxSize ≤ (serializeGo env0 severety.info_severety (List.replicate 102400 'a') none).length := by
    refine le_trans ?_ (esc_length_le_serialize env0 severety.info_severety _ none)
    rw [ha, List.length_replicate]
    decide
  have htake : (serializeGo env0 severety.info_severety (List.replicate 102400 'a') none).take 100000 =
      "\x7b\"message\":\"".data ++ List.replicate 99988 'a' := by
    rw [take_serializeGo_none env0 _ _ (by rw [ha, List.length_replicate]; decide), ha,
      List.take_replicate, show min 99988 102400 = 99988 from by norm_num]
  have hesc : (esc (overflowMessage
      (serializeGo env0 severety.info_severety (List.replicate 102400 'a') none))).length = 100045 := by
    rw [overflowMessage_eq, htake, esc_append, esc_append,
      esc_replicate_safe 'a' (by decide) 99988]
    simp only [List.length_append, List.length_replicate]
    rw [show (esc "log entry exeed max size of 102400 bytes: ".data).length = 42 from by decide,
      show (esc "\x7b\"message\":\"".data).length = 15 from by decide]
  have h2 : (serializeGo env0 severety.error_severety
      (overflowMessage (serializeGo env0 severety.info_severety (List.replicate 102400 'a') none))
      none).length < maxSize := by
    rw [serializeGo_length, hesc,
      show (payloadPart (none : Option (List Char))).length = 0 from rfl,
      show (severityField severety.error_severety).length = 18 from by decide,
      show (restField env0 severety.error_severety).length = 222 from by decide]
    decide
  exact C3_one_step_when_substitute_fits env0 env0 severety.info_severety _ none h1 h2

/-- C3 counterexample: a 51200-quote message marshals to a record at the
threshold; the 100000-character excerpt is quote-and-backslash-dense, so
escaping it inside the substitute's message puts the substitute itself over
the threshold: the substitution re-enters the size-guard branch, and the
fuel covering exactly one recursive step (the step the claim promises to be
the last) emits nothing. -/
theorem C3_substitute_reenters_guard :
    maxSize ≤ (serializeGo env0 severety.info_severety (List.replicate 51200 '\"') none).length ∧
    maxSize ≤ (serializeGo env0 severety.error_severety
      (overflowMessage
        (serializeGo env0 severety.info_severety (List.replicate 51200 '\"') none)) none).length ∧
    writeLogFuel env0 2 env0 severety.info_severety (List.replicate 51200 '\"') none = none := by
  have hq : (esc (List.replicate 51200 '\"')).length = 102400 := by
    rw [length_esc_replicate_quote]
  have h1 : maxSize ≤ (serializeGo env0 severety.info_severety (List.replicate 51200 '\"') none).length := by
    refine le_trans ?_ (esc_length_le_serialize env0 severety.info_severety _ none)
    rw [hq]
    decide
  have htake : (serializeGo env0 severety.info_severety (List.replicate 51200 '\"') none).take 100000 =
      "\x7b\"message\":\"".data ++ esc (List.replicate 49994 '\"') := by
    rw [take_serializeGo_none env0 _ _ (by rw [hq]; decide),
      show (99988 : Nat) = 2 * 49994 from by norm_num, take_esc_replicate_quote,
      show min 49994 51200 = 49994 from by norm_num]
  have hesc : maxSize ≤ (esc (overflowMessage
      (serializeGo env0 severety.info_severety (List.replicate 51200 '\"') none))).length := by
    rw [overflowMessage_eq, htake, esc_append, esc_append]
    simp only [List.length_append]
    rw [length_esc_esc_replicate_quote]
    show 102400 ≤ _
    omega
  have h2 : maxSize ≤ (serializeGo env0 severety.error_severety
      (overflowMessage
        (serializeGo env0 severety.info_severety (List.replicate 51200 '\"') none)) none).length :=
    le_trans hesc (esc_length_le_serialize env0 severety.error_severety _ none)
  refine ⟨h1, h2, ?_⟩
  show writeLogFuel env0 (1 + 1) env0 severety.info_severety (List.replicate 51200 '\"') none = none
  rw [writeLogFuel,
    show writeLogStep env0 severety.info_severety (List.replicate 51200 '\"') none =
        StepResult.overflow (overflowMessage
          (serializeGo env0 severety.info_severety (List.replicate 51200 '\"') none)) from by
      simp only [writeLogStep]; rw [if_pos h1]]
  show writeLogFuel env0 (0 + 1) env0 severety.error_severety _ none = none
  rw [writeLogFuel,
    show writeLogStep env0 severety.error_severety
          (overflowMessage
            (serializeGo env0 severety.info_severety (List.replicate 51200 '\"') none)) none =
        StepResult.overflow (overflowMessage
          (serializeGo env0 severety.error_severety
            (overflowMessage
              (serializeGo env0 severety.info_severety (List.replicate 51200 '\"') none)) none)) from by
      simp only [writeLogStep]; rw [if_pos h2]]
  rfl

end runlogger
